import Mathlib

/-!
Verification of the kamsguard replay server core against its source.

Shallow embedding of:
* the JPEG frame extraction loop in `StreamManager._createReplayStream`
  (response "data" handler): `extractFrames`, `processChunks`;
* the NetVu device HTTP client `netVuHttpGet` (silence / max-timeout
  completion detection): `netVuHttpGetSim`;
* the replay session lifecycle (settlement paths, `addClient`,
  `stopStream`): `RState`, `step`, `run`;
* the registry capacity gate in `startLiveStream` / `startReplayStream`:
  `MgrState`, `mgrStep`.

Bytes are modelled as `Nat` (only equality with the marker bytes 0xFF=255,
0xD8=216, 0xD9=217 matters); buffers as `List Nat`.
-/

namespace KamsguardReplay

/-! ## Two-byte marker search

`Buffer.indexOf(Buffer.from([b1, b2]), start)` : first index `i ≥ start`
with `buf[i] = b1` and `buf[i+1] = b2`, or none (JS: -1). -/
def findPairFrom (b1 b2 : Nat) : List Nat → Option Nat
  | [] => none
  | [_] => none
  | x :: y :: rest =>
    if x = b1 ∧ y = b2 then some 0
    else (findPairFrom b1 b2 (y :: rest)).map (fun k => k + 1)

def findMarker (b1 b2 : Nat) (buf : List Nat) (start : Nat) : Option Nat :=
  (findPairFrom b1 b2 (buf.drop start)).map (fun k => k + start)

/-! ## Frame extraction

Transcribes the `while (start !== -1 && end !== -1)` loop of the replay
"data" handler (part_004 lines 384-445): find SOI `FF D8`, find EOI
`FF D9` from `start + 2`, slice the frame `[start, end + 2)`, drop the
consumed bytes, repeat.  When either marker is missing the buffer is kept
unchanged (the code never trims leading bytes).

The loop is expressed with an explicit fuel argument so that it is
structurally recursive and computes by evaluation; each iteration consumes
at least two bytes, so `buf.length` iterations always suffice
(`extractGo_fuel` shows the result is fuel-independent past that bound). -/
def extractGo : Nat → List Nat → List (List Nat) × List Nat
  | 0, buf => ([], buf)
  | fuel + 1, buf =>
    match findMarker 255 216 buf 0 with
    | none => ([], buf)
    | some s =>
      match findMarker 255 217 buf (s + 2) with
      | none => ([], buf)
      | some e =>
        let r := extractGo fuel (buf.drop (e + 2))
        (((buf.drop s).take (e + 2 - s)) :: r.1, r.2)

def extractFrames (buf : List Nat) : List (List Nat) × List Nat :=
  extractGo buf.length buf

/-! ## Chunked delivery

`processChunks` mirrors repeated invocations of the data handler: the
leftover buffer is carried across chunk deliveries
(`streamInstance.buffer = Buffer.concat([streamInstance.buffer, chunk])`). -/
def processChunks : List Nat → List (List Nat) → List (List Nat) × List Nat
  | st, [] => ([], st)
  | st, c :: cs =>
    let r := extractFrames (st ++ c)
    let r2 := processChunks r.2 cs
    (r.1 ++ r2.1, r2.2)

/-! ## NetVu device HTTP client

Shallow embedding of `netVuHttpGet` (src/src/utils/netvuClient.js).

The device behaviour is a script of timed events (byte chunk, connection
end, response error).  The client is simulated as a fold over the script:

* For a 200 response the max timer is armed at response time
  (`tOpen + maxT`, line 84) and the silence timer is re-armed at
  `t + silT` on every data chunk (lines 91-101).  Before handling a
  device event at time `t`, any armed timer whose deadline is strictly
  earlier fires first and completes the request with the concatenated
  chunks (`completeRequest`, lines 41-61); `end` also completes, `error`
  rejects.  After the script is exhausted, an armed timer eventually
  fires.
* For a non-200 response (lines 70-82) no timer is ever armed — the
  body is accumulated and the promise rejects only on `end` (or `error`
  via the request error handler); the request options carry no socket
  timeout (lines 37-39), so nothing else can settle it.

All completion paths are guarded by the `resolved` flag (here: the
`outcome` field being set freezes the state). -/
inductive DevEv
  | chunk (bytes : List Nat)
  | closeEv
  | errorEv
  deriving DecidableEq, Repr

inductive Cause
  | closedCause
  | silenceCause
  | maxCause
  deriving DecidableEq, Repr

inductive NetOutcome
  | resolvedAt (t : Nat) (c : Cause) (body : List Nat)
  | rejectedHttp (t status : Nat) (body : List Nat)
  | rejectedErr (t : Nat)
  deriving DecidableEq, Repr

structure CState where
  chunksAcc : List (List Nat) := []
  errorData : List Nat := []
  silenceDL : Option Nat := none
  maxDL : Option Nat := none
  outcome : Option NetOutcome := none
  deriving DecidableEq, Repr

/-- The earliest armed timer with deadline strictly before `t`, if any
(silence preferred on a tie, which does not change the resolved body). -/
def dueTimer (st : CState) (t : Nat) : Option (Nat × Cause) :=
  let sdl := match st.silenceDL with
    | some d => if d < t then some d else none
    | none => none
  let mdl := match st.maxDL with
    | some d => if d < t then some d else none
    | none => none
  match sdl, mdl with
  | some d, some m => if d ≤ m then some (d, Cause.silenceCause) else some (m, Cause.maxCause)
  | some d, none => some (d, Cause.silenceCause)
  | none, some m => some (m, Cause.maxCause)
  | none, none => none

/-- Fire a due timer before handling an event at time `t`
(`completeRequest`: resolve with the concatenation of the chunks). -/
def fireDue (st : CState) (t : Nat) : CState :=
  if st.outcome.isSome then st
  else
    match dueTimer st t with
    | some dc => { st with outcome := some (NetOutcome.resolvedAt dc.1 dc.2 st.chunksAcc.flatten) }
    | none => st

/-- Handle one device event, as the installed listeners do. -/
def handleEv (status silT : Nat) (st : CState) (t : Nat) (ev : DevEv) : CState :=
  if st.outcome.isSome then st
  else if status = 200 then
    match ev with
    | DevEv.chunk b =>
        { st with chunksAcc := st.chunksAcc ++ [b], silenceDL := some (t + silT) }
    | DevEv.closeEv =>
        { st with outcome := some (NetOutcome.resolvedAt t Cause.closedCause st.chunksAcc.flatten) }
    | DevEv.errorEv =>
        { st with outcome := some (NetOutcome.rejectedErr t) }
  else
    match ev with
    | DevEv.chunk b => { st with errorData := st.errorData ++ b }
    | DevEv.closeEv =>
        { st with outcome := some (NetOutcome.rejectedHttp t status st.errorData) }
    | DevEv.errorEv =>
        { st with outcome := some (NetOutcome.rejectedErr t) }

/-- After the device script is exhausted, an armed timer eventually fires. -/
def fireRemaining (st : CState) : CState :=
  if st.outcome.isSome then st
  else
    match st.silenceDL, st.maxDL with
    | some d, some m =>
        if d ≤ m then { st with outcome := some (NetOutcome.resolvedAt d Cause.silenceCause st.chunksAcc.flatten) }
        else { st with outcome := some (NetOutcome.resolvedAt m Cause.maxCause st.chunksAcc.flatten) }
    | some d, none =>
        { st with outcome := some (NetOutcome.resolvedAt d Cause.silenceCause st.chunksAcc.flatten) }
    | none, some m =>
        { st with outcome := some (NetOutcome.resolvedAt m Cause.maxCause st.chunksAcc.flatten) }
    | none, none => st

def simEvents (status silT : Nat) : CState → List (Nat × DevEv) → CState
  | st, [] => fireRemaining st
  | st, (t, ev) :: rest => simEvents status silT (handleEv status silT (fireDue st t) t ev) rest

/-- Whole-request simulation: for a 200 response the max timer is armed on
response open; otherwise no timer is ever armed. -/
def netVuHttpGetSim (status silT maxT tOpen : Nat) (evs : List (Nat × DevEv)) : CState :=
  let st0 : CState := if status = 200 then { maxDL := some (tOpen + maxT) } else {}
  simEvents status silT st0 evs

def chunkPayloads (evs : List (Nat × DevEv)) : List (List Nat) :=
  evs.filterMap (fun te =>
    match te.2 with
    | DevEv.chunk b => some b
    | _ => none)

def DevEv.isChunk : DevEv → Bool
  | DevEv.chunk _ => true
  | _ => false

/-! ## Replay session lifecycle

State machine transcribing `StreamManager._createReplayStream`
(part_004 lines 309-509) together with `StreamManager.addClient`
(lines 511-553), `StreamManager.stopStream` (lines 555-610) and
`StreamManager._handleStreamError` (lines 612-621), restricted to one
replay attempt / session.

Events are the externally triggered callbacks; outputs record the
externally visible actions (promise resolution / rejection, writes to
client sinks, `end` on sinks, `destroy` on the request / response,
emitted notifications).  The `isResolved` flag is `settled`; presence of
the stream id in `this.streams` is `inRegistry`; the watchdog timer being
armed is `watchdogCleared = false`.  Client sinks are identified by
numeric ids; `observed` is the set of sinks on which the `addClient`
close / error observers were installed. -/
inductive RErr
  | watchdogNoRecording
  | deviceStatus (code : Nat) (body : List Nat)
  | noRecordingAtTimestamp
  | transportError
  deriving DecidableEq

inductive Settle
  | started
  | failed (e : RErr)
  deriving DecidableEq

inductive ROut
  | resolvedOut
  | rejectedOut (e : RErr)
  | emittedStarted
  | wroteFrame (frame : List Nat) (dst : List Nat)
  | endedClient (c : Nat)
  | destroyedRequest
  | destroyedResponse
  | emittedStopped (duration bytes frames : Nat)
  | emittedError
  deriving DecidableEq

inductive REv
  | respOpen (t status : Nat)
  | dataChunk (chunk : List Nat)
  | upEnd (t : Nat)
  | upError (t : Nat)
  | watchdogFire
  | reqError
  | reqTimeout
  | attach (c : Nat)
  | closeEvt (c t : Nat)
  | errorEvt (c : Nat)
  | stopCall (t : Nat)
  deriving DecidableEq

structure RState where
  responded : Bool := false
  status : Nat := 0
  startTime : Nat := 0
  settled : Bool := false
  outcome : Option Settle := none
  errorData : List Nat := []
  buffer : List Nat := []
  statsBytes : Nat := 0
  statsFrames : Nat := 0
  inRegistry : Bool := false
  clients : List Nat := []
  observed : List Nat := []
  watchdogCleared : Bool := false
  requestDestroyed : Bool := false
  bufferReleased : Bool := false
  deriving DecidableEq

def RState.init : RState := {}

/-- Transcribes `stopStream` (lines 555-610): `false` and no change for an
id not in the registry; otherwise destroy the request and the device
stream, `end` every attached sink (the source skips sinks already
destroyed; sinks here are modelled as live), null the buffer, delete the
session and emit `stream-stopped` with duration and the final stats. -/
def stopStream (st : RState) (now : Nat) : Bool × RState × List ROut :=
  if st.inRegistry = false then (false, st, [])
  else
    (true,
     { st with inRegistry := false, requestDestroyed := true, bufferReleased := true },
     ROut.destroyedRequest :: ROut.destroyedResponse ::
       (st.clients.map ROut.endedClient ++
        [ROut.emittedStopped (now - st.startTime) st.statsBytes st.statsFrames]))

/-- One event of the replay session machine.  Each branch transcribes the
corresponding handler of `_createReplayStream` / `addClient` /
`stopStream`; comments give the source lines. -/
def step (st : RState) (ev : REv) : RState × List ROut :=
  match ev with
  | REv.respOpen t status =>
      if st.responded = true then (st, [])
      else ({ st with responded := true, status := status, startTime := t }, [])
  | REv.dataChunk chunk =>
      if st.responded = false then (st, [])
      else if st.status ≠ 200 then
        ({ st with errorData := st.errorData ++ chunk }, [])
      else if (extractFrames (st.buffer ++ chunk)).1 ≠ [] ∧ st.settled = false then
        ({ st with settled := true, outcome := some Settle.started,
                   watchdogCleared := true, inRegistry := true,
                   buffer := (extractFrames (st.buffer ++ chunk)).2,
                   statsBytes := st.statsBytes +
                     ((extractFrames (st.buffer ++ chunk)).1.map List.length).sum,
                   statsFrames := st.statsFrames + (extractFrames (st.buffer ++ chunk)).1.length },
         ROut.emittedStarted :: ROut.resolvedOut ::
           (extractFrames (st.buffer ++ chunk)).1.map (fun f => ROut.wroteFrame f st.clients))
      else
        ({ st with buffer := (extractFrames (st.buffer ++ chunk)).2,
                   statsBytes := st.statsBytes +
                     ((extractFrames (st.buffer ++ chunk)).1.map List.length).sum,
                   statsFrames := st.statsFrames + (extractFrames (st.buffer ++ chunk)).1.length },
         (extractFrames (st.buffer ++ chunk)).1.map (fun f => ROut.wroteFrame f st.clients))
  | REv.upEnd t =>
      if st.responded = false then (st, [])
      else if st.status ≠ 200 then
        if st.settled = false then
          ({ st with settled := true, watchdogCleared := true,
                     outcome := some (Settle.failed (RErr.deviceStatus st.status st.errorData)) },
           [ROut.rejectedOut (RErr.deviceStatus st.status st.errorData)])
        else ({ st with watchdogCleared := true }, [])
      else if st.settled = false then
        ({ st with settled := true, watchdogCleared := true,
                   outcome := some (Settle.failed RErr.noRecordingAtTimestamp) },
         [ROut.rejectedOut RErr.noRecordingAtTimestamp])
      else
        ((stopStream st t).2.1, (stopStream st t).2.2)
  | REv.upError t =>
      if st.responded = false then (st, [])
      else if st.status ≠ 200 then (st, [])
      else if st.settled = false then
        ({ st with settled := true, watchdogCleared := true,
                   outcome := some (Settle.failed RErr.transportError) },
         [ROut.rejectedOut RErr.transportError])
      else
        ((stopStream { st with watchdogCleared := true } t).2.1,
         ROut.emittedError :: (stopStream { st with watchdogCleared := true } t).2.2)
  | REv.watchdogFire =>
      if st.watchdogCleared = true then (st, [])
      else if st.settled = false then
        ({ st with settled := true, requestDestroyed := true, watchdogCleared := true,
                   outcome := some (Settle.failed RErr.watchdogNoRecording) },
         [ROut.destroyedRequest, ROut.rejectedOut RErr.watchdogNoRecording])
      else (st, [])
  | REv.reqError =>
      if st.settled = false then
        ({ st with settled := true, watchdogCleared := true,
                   outcome := some (Settle.failed RErr.transportError) },
         [ROut.rejectedOut RErr.transportError])
      else ({ st with watchdogCleared := true }, [])
  | REv.reqTimeout =>
      ({ st with requestDestroyed := true }, [ROut.destroyedRequest])
  | REv.attach c =>
      if st.inRegistry = false then (st, [])
      else
        ({ st with
             clients := if c ∈ st.clients then st.clients else st.clients ++ [c],
             observed := if c ∈ st.observed then st.observed else st.observed ++ [c] },
         [])
  | REv.closeEvt c t =>
      if c ∈ st.observed then
        if st.clients.erase c = [] then
          ((stopStream { st with clients := st.clients.erase c } t).2.1,
           (stopStream { st with clients := st.clients.erase c } t).2.2)
        else ({ st with clients := st.clients.erase c }, [])
      else (st, [])
  | REv.errorEvt c =>
      if c ∈ st.observed then ({ st with clients := st.clients.erase c }, [])
      else (st, [])
  | REv.stopCall t =>
      ((stopStream st t).2.1, (stopStream st t).2.2)

def run : RState → List REv → RState
  | st, [] => st
  | st, ev :: evs => run (step st ev).1 evs

def runOuts : RState → List REv → List ROut
  | _, [] => []
  | st, ev :: evs => (step st ev).2 ++ runOuts (step st ev).1 evs

def ROut.isSettlement : ROut → Bool
  | ROut.resolvedOut => true
  | ROut.rejectedOut _ => true
  | _ => false

def settleCount (outs : List ROut) : Nat := (outs.filter ROut.isSettlement).length

def firstWroteTo : List ROut → Option (List Nat)
  | [] => none
  | ROut.wroteFrame _ dst :: _ => some dst
  | _ :: rest => firstWroteTo rest

def ROut.isStoppedEmit : ROut → Bool
  | ROut.emittedStopped _ _ _ => true
  | _ => false

/-- Session state invariant, established by `RState.init` and preserved by
every event. -/
def Inv (st : RState) : Prop :=
  st.settled = st.outcome.isSome
  ∧ (st.settled = false →
      st.clients = [] ∧ st.observed = [] ∧ st.inRegistry = false ∧ st.statsFrames = 0)
  ∧ (st.inRegistry = true → st.outcome = some Settle.started)
  ∧ (st.outcome = some Settle.started → 1 ≤ st.statsFrames)
  ∧ (st.clients ≠ [] → st.outcome = some Settle.started)

/-! ## Registry capacity gate

`startLiveStream` (part_004 lines 42-75) and `startReplayStream`
(lines 269-297) begin with the identical gate
`if (this.streams.size >= this.maxStreams) throw new Error("Maximum
streams limit reached (...)")` placed before the URL is built and before
`transport.request` / `transport.get` is issued.  A session is added to
`this.streams` only later, inside the data handler, on the first data
chunk (live, line 166) / first parsed frame (replay, line 406).

`MgrState.active` is `this.streams.size`; `admitted` counts attempts that
passed the gate and whose connection is open but not yet registered;
`netCalls` counts device connection attempts. -/
structure MgrState where
  active : Nat := 0
  maxStreams : Nat := 100
  admitted : Nat := 0
  netCalls : Nat := 0
  deriving DecidableEq

inductive MgrEv
  | startAttempt
  | firstFrameRegister
  deriving DecidableEq

inductive MgrOut
  | atCapacityError (maxStreams : Nat)
  | netCall
  deriving DecidableEq

def mgrStep (st : MgrState) : MgrEv → MgrState × List MgrOut
  | MgrEv.startAttempt =>
      if st.maxStreams ≤ st.active then (st, [MgrOut.atCapacityError st.maxStreams])
      else
        ({ st with admitted := st.admitted + 1, netCalls := st.netCalls + 1 },
         [MgrOut.netCall])
  | MgrEv.firstFrameRegister =>
      if st.admitted = 0 then (st, [])
      else ({ st with admitted := st.admitted - 1, active := st.active + 1 }, [])

def mgrRun : MgrState → List MgrEv → MgrState
  | st, [] => st
  | st, ev :: evs => mgrRun (mgrStep st ev).1 evs

/-- A started attempt saw the 200 response callback: `outcome = started`
is set only in the data handler of the 200 path, and `respOpen` fires at
most once, so `responded` and `status` are frozen afterwards. -/
def Started200 (st : RState) : Prop :=
  st.outcome = some Settle.started → st.responded = true ∧ st.status = 200

theorem findPairFrom_bytes (b1 b2 : Nat) :
    ∀ (l : List Nat) (k : Nat), findPairFrom b1 b2 l = some k →
      l.get? k = some b1 ∧ l.get? (k + 1) = some b2
  | [], k, h => by simp [findPairFrom] at h
  | [x], k, h => by simp [findPairFrom] at h
  | x :: y :: rest, k, h => by
    rw [findPairFrom] at h
    split at h
    · rename_i hxy
      cases h
      simpa using ⟨hxy.1, hxy.2⟩
    · rcases Option.map_eq_some'.mp h with ⟨k0, hk0, rfl⟩
      have := findPairFrom_bytes b1 b2 (y :: rest) k0 hk0
      simpa using this

theorem findPairFrom_lt (b1 b2 : Nat) (l : List Nat) (k : Nat)
    (h : findPairFrom b1 b2 l = some k) : k + 1 < l.length := by
  have h2 := (findPairFrom_bytes b1 b2 l k h).2
  exact (List.get?_eq_some.mp h2).1

theorem findPairFrom_append (b1 b2 : Nat) :
    ∀ (l l2 : List Nat) (k : Nat), findPairFrom b1 b2 l = some k →
      findPairFrom b1 b2 (l ++ l2) = some k
  | [], _, k, h => by simp [findPairFrom] at h
  | [x], _, k, h => by simp [findPairFrom] at h
  | x :: y :: rest, l2, k, h => by
    rw [findPairFrom] at h
    rw [List.cons_append, List.cons_append, findPairFrom]
    split at h
    · rename_i hxy
      cases h
      simp [hxy]
    · rename_i hxy
      rcases Option.map_eq_some'.mp h with ⟨k0, hk0, rfl⟩
      rw [if_neg hxy]
      have := findPairFrom_append b1 b2 (y :: rest) l2 k0 hk0
      rw [List.cons_append] at this
      rw [this]
      rfl

theorem findMarker_bytes (b1 b2 : Nat) (buf : List Nat) (s e : Nat)
    (h : findMarker b1 b2 buf s = some e) :
    s ≤ e ∧ buf.get? e = some b1 ∧ buf.get? (e + 1) = some b2 := by
  rcases Option.map_eq_some'.mp h with ⟨k, hk, rfl⟩
  have hb := findPairFrom_bytes b1 b2 (buf.drop s) k hk
  constructor
  · omega
  constructor
  · have := hb.1
    rwa [List.get?_drop, Nat.add_comm] at this
  · have := hb.2
    rw [List.get?_drop] at this
    rwa [show s + (k + 1) = k + s + 1 by omega] at this

theorem findMarker_lt (b1 b2 : Nat) (buf : List Nat) (s e : Nat)
    (h : findMarker b1 b2 buf s = some e) : e + 1 < buf.length := by
  have := (findMarker_bytes b1 b2 buf s e h).2.2
  exact (List.get?_eq_some.mp this).1

theorem findMarker_append (b1 b2 : Nat) (buf l2 : List Nat) (s e : Nat)
    (h : findMarker b1 b2 buf s = some e) :
    findMarker b1 b2 (buf ++ l2) s = some e := by
  rcases Option.map_eq_some'.mp h with ⟨k, hk, rfl⟩
  have hs : s ≤ buf.length := by
    have := findPairFrom_lt b1 b2 _ _ hk
    rw [List.length_drop] at this
    omega
  unfold findMarker
  rw [List.drop_append_of_le_length hs, findPairFrom_append b1 b2 _ l2 k hk]
  rfl

theorem extractGo_fuel : ∀ (f1 f2 : Nat) (buf : List Nat),
    buf.length ≤ f1 → buf.length ≤ f2 → extractGo f1 buf = extractGo f2 buf
  | 0, 0, _, _, _ => rfl
  | 0, f2 + 1, buf, h1, _ => by
    have : buf = [] := List.length_eq_zero.mp (Nat.le_zero.mp h1)
    subst this
    simp [extractGo, findMarker, findPairFrom]
  | f1 + 1, 0, buf, _, h2 => by
    have : buf = [] := List.length_eq_zero.mp (Nat.le_zero.mp h2)
    subst this
    simp [extractGo, findMarker, findPairFrom]
  | f1 + 1, f2 + 1, buf, h1, h2 => by
    cases hs : findMarker 255 216 buf 0 with
    | none => simp [extractGo, hs]
    | some s =>
      cases he : findMarker 255 217 buf (s + 2) with
      | none => simp [extractGo, hs, he]
      | some e =>
        have hlt := findMarker_lt 255 217 buf (s + 2) e he
        have hrec := extractGo_fuel f1 f2 (buf.drop (e + 2))
          (by rw [List.length_drop]; omega) (by rw [List.length_drop]; omega)
        simp [extractGo, hs, he, hrec]

theorem extractFrames_no_soi (buf : List Nat)
    (h : findMarker 255 216 buf 0 = none) : extractFrames buf = ([], buf) := by
  unfold extractFrames
  cases hn : buf.length with
  | zero => rfl
  | succ m => simp [extractGo, h]

theorem extractFrames_no_eoi (buf : List Nat) (s : Nat)
    (hs : findMarker 255 216 buf 0 = some s)
    (he : findMarker 255 217 buf (s + 2) = none) :
    extractFrames buf = ([], buf) := by
  unfold extractFrames
  cases hn : buf.length with
  | zero => rfl
  | succ m => simp [extractGo, hs, he]

theorem extractFrames_step (buf : List Nat) (s e : Nat)
    (hs : findMarker 255 216 buf 0 = some s)
    (he : findMarker 255 217 buf (s + 2) = some e) :
    extractFrames buf =
      (((buf.drop s).take (e + 2 - s)) :: (extractFrames (buf.drop (e + 2))).1,
       (extractFrames (buf.drop (e + 2))).2) := by
  have hlt := findMarker_lt 255 217 buf (s + 2) e he
  unfold extractFrames
  cases hn : buf.length with
  | zero => omega
  | succ m =>
    have hrec : extractGo m (buf.drop (e + 2)) =
        extractGo (buf.drop (e + 2)).length (buf.drop (e + 2)) :=
      extractGo_fuel m _ _ (by rw [List.length_drop]; omega) (Nat.le_refl _)
    simp [extractGo, hs, he, extractFrames, hrec]

theorem extractFrames_nil_of_fst_nil (buf : List Nat)
    (h : (extractFrames buf).1 = []) : extractFrames buf = ([], buf) := by
  match hs : findMarker 255 216 buf 0 with
  | none => exact extractFrames_no_soi buf hs
  | some s =>
    match he : findMarker 255 217 buf (s + 2) with
    | none => exact extractFrames_no_eoi buf s hs he
    | some e =>
      rw [extractFrames_step buf s e hs he] at h
      simp at h

/-- The leftover of an extraction is frame-free: re-running the extractor on
it extracts nothing and keeps it unchanged. -/
theorem extractFrames_snd_stable (buf : List Nat) :
    extractFrames ((extractFrames buf).2) = ([], (extractFrames buf).2) := by
  match hs : findMarker 255 216 buf 0 with
  | none =>
    rw [extractFrames_no_soi buf hs]
    exact extractFrames_no_soi buf hs
  | some s =>
    match he : findMarker 255 217 buf (s + 2) with
    | none =>
      rw [extractFrames_no_eoi buf s hs he]
      exact extractFrames_no_eoi buf s hs he
    | some e =>
      rw [extractFrames_step buf s e hs he]
      exact extractFrames_snd_stable (buf.drop (e + 2))
termination_by buf.length
decreasing_by
  have := findMarker_lt 255 217 buf (s + 2) e he
  simp only [List.length_drop]
  omega

/-- Key composition lemma: extracting from `b1 ++ b2` is the same as
extracting from `b1`, then extracting from its leftover followed by `b2`. -/
theorem extractFrames_append (b1 b2 : List Nat) :
    extractFrames (b1 ++ b2) =
      ((extractFrames b1).1 ++ (extractFrames ((extractFrames b1).2 ++ b2)).1,
       (extractFrames ((extractFrames b1).2 ++ b2)).2) := by
  match hs : findMarker 255 216 b1 0 with
  | none =>
    rw [extractFrames_no_soi b1 hs]
    simp
  | some s =>
    match he : findMarker 255 217 b1 (s + 2) with
    | none =>
      rw [extractFrames_no_eoi b1 s hs he]
      simp
    | some e =>
      have hs12 := findMarker_append 255 216 b1 b2 0 s hs
      have he12 := findMarker_append 255 217 b1 b2 (s + 2) e he
      have helen : e + 1 < b1.length := findMarker_lt 255 217 b1 (s + 2) e he
      have hse2 : s + 2 ≤ e := (findMarker_bytes 255 217 b1 (s + 2) e he).1
      have hse : s ≤ e := by omega
      have hd1 : e + 2 ≤ b1.length := by omega
      have hd2 : s ≤ b1.length := by omega
      have htk : e + 2 - s ≤ (b1.drop s).length := by
        rw [List.length_drop]
        omega
      have hdrop : (b1 ++ b2).drop (e + 2) = b1.drop (e + 2) ++ b2 :=
        List.drop_append_of_le_length hd1
      have hframe : ((b1 ++ b2).drop s).take (e + 2 - s) = (b1.drop s).take (e + 2 - s) := by
        rw [List.drop_append_of_le_length hd2, List.take_append_of_le_length htk]
      rw [extractFrames_step (b1 ++ b2) s e hs12 he12,
          extractFrames_step b1 s e hs he, hdrop, hframe]
      have ih := extractFrames_append (b1.drop (e + 2)) b2
      rw [ih]
      simp
termination_by b1.length
decreasing_by
  have := findMarker_lt 255 217 b1 (s + 2) e he
  simp only [List.length_drop]
  omega

theorem processChunks_eq_extract (cs : List (List Nat)) :
    ∀ st : List Nat, (extractFrames st).1 = [] →
      processChunks st cs = extractFrames (st ++ cs.flatten) := by
  induction cs with
  | nil =>
    intro st hst
    have := extractFrames_nil_of_fst_nil st hst
    simp [processChunks, List.append_nil, this]
  | cons c cs ih =>
    intro st hst
    have hstable : (extractFrames ((extractFrames (st ++ c)).2)).1 = [] := by
      rw [extractFrames_snd_stable (st ++ c)]
    have ihc := ih ((extractFrames (st ++ c)).2) hstable
    have happ := extractFrames_append (st ++ c) cs.flatten
    rw [processChunks, ihc]
    rw [show st ++ (c :: cs).flatten = (st ++ c) ++ cs.flatten by simp]
    rw [happ]

theorem take_two_of_get (l : List Nat) (a b : Nat)
    (h0 : l.get? 0 = some a) (h1 : l.get? 1 = some b) : l.take 2 = [a, b] := by
  match l with
  | [] => cases h0
  | [x] => cases h1
  | x :: y :: rest =>
    simp only [List.get?] at h0 h1
    injection h0 with h0
    injection h1 with h1
    subst h0
    subst h1
    rfl

/-- Every extracted frame spans its start marker to its end marker inclusive:
it is at least 4 bytes, begins with `FF D8` and ends with `FF D9`. -/
theorem extractFrames_frame_shape (buf : List Nat) :
    ∀ f ∈ (extractFrames buf).1,
      4 ≤ f.length ∧ f.take 2 = [255, 216] ∧ f.drop (f.length - 2) = [255, 217] := by
  match hs : findMarker 255 216 buf 0 with
  | none =>
    rw [extractFrames_no_soi buf hs]
    intro f hf
    cases hf
  | some s =>
    match he : findMarker 255 217 buf (s + 2) with
    | none =>
      rw [extractFrames_no_eoi buf s hs he]
      intro f hf
      cases hf
    | some e =>
      rw [extractFrames_step buf s e hs he]
      intro f hf
      rcases List.mem_cons.mp hf with hfeq | hfmem
      · subst hfeq
        have hsb := findMarker_bytes 255 216 buf 0 s hs
        have heb := findMarker_bytes 255 217 buf (s + 2) e he
        have hlt : e + 1 < buf.length := findMarker_lt 255 217 buf (s + 2) e he
        have hse : s + 2 ≤ e := heb.1
        have hlen : ((buf.drop s).take (e + 2 - s)).length = e + 2 - s := by
          rw [List.length_take, List.length_drop]
          omega
        refine ⟨by omega, ?_, ?_⟩
        · rw [List.take_take, show min 2 (e + 2 - s) = 2 by omega]
          refine take_two_of_get _ _ _ ?_ ?_
          · rw [List.get?_drop]
            simpa using hsb.2.1
          · rw [List.get?_drop]
            simpa using hsb.2.2
        · rw [hlen, show e + 2 - s - 2 = e - s by omega, List.drop_take,
              List.drop_drop, show s + (e - s) = e by omega,
              show e + 2 - s - (e - s) = 2 by omega]
          refine take_two_of_get _ _ _ ?_ ?_
          · rw [List.get?_drop]
            simpa using heb.2.1
          · rw [List.get?_drop]
            have := heb.2.2
            rwa [show e + (0 + 1) = e + 1 by omega]
      · exact extractFrames_frame_shape (buf.drop (e + 2)) f hfmem
termination_by buf.length
decreasing_by
  have := findMarker_lt 255 217 buf (s + 2) e he
  simp only [List.length_drop]
  omega

theorem simEvents_frozen (status silT : Nat) :
    ∀ (evs : List (Nat × DevEv)) (st : CState), st.outcome.isSome →
      simEvents status silT st evs = st
  | [], st, h => by
    simp only [simEvents, fireRemaining, if_pos h]
  | (t, ev) :: rest, st, h => by
    have h1 : fireDue st t = st := by simp only [fireDue, if_pos h]
    have h2 : handleEv status silT st t ev = st := by
      simp only [handleEv, if_pos h]
    rw [simEvents, h1, h2]
    exact simEvents_frozen status silT rest st h

theorem fireDue_cases (st : CState) (t : Nat) :
    fireDue st t = st ∨
      (st.outcome = none ∧ ∃ d c,
        fireDue st t = { st with outcome := some (NetOutcome.resolvedAt d c st.chunksAcc.flatten) }) := by
  by_cases h : st.outcome.isSome
  · left
    simp only [fireDue, if_pos h]
  · have hn : st.outcome = none := Option.not_isSome_iff_eq_none.mp h
    match hd : dueTimer st t with
    | none =>
      left
      simp only [fireDue, if_neg h, hd]
    | some dc =>
      right
      exact ⟨hn, dc.1, dc.2, by simp only [fireDue, if_neg h, hd]⟩

theorem chunkPayloads_nil : chunkPayloads [] = [] := rfl

theorem chunkPayloads_cons_chunk (t : Nat) (b : List Nat) (rest : List (Nat × DevEv)) :
    chunkPayloads ((t, DevEv.chunk b) :: rest) = b :: chunkPayloads rest := rfl

theorem chunkPayloads_cons_close (t : Nat) (rest : List (Nat × DevEv)) :
    chunkPayloads ((t, DevEv.closeEv) :: rest) = chunkPayloads rest := rfl

theorem chunkPayloads_cons_error (t : Nat) (rest : List (Nat × DevEv)) :
    chunkPayloads ((t, DevEv.errorEv) :: rest) = chunkPayloads rest := rfl

theorem simEvents_200_settles (silT : Nat) :
    ∀ (evs : List (Nat × DevEv)) (st : CState),
      st.maxDL.isSome ∨ st.outcome.isSome →
      (simEvents 200 silT st evs).outcome.isSome
  | [], st, h => by
    rw [simEvents]
    unfold fireRemaining
    by_cases ho : st.outcome.isSome
    · simpa [ho] using ho
    · rcases h with h | h
      · rcases Option.isSome_iff_exists.mp h with ⟨m, hm⟩
        cases hs : st.silenceDL with
        | none => simp [ho, hs, hm]
        | some d =>
          simp only [ho, hs, hm, if_false, Bool.false_eq_true, not_false_eq_true]
          split <;> simp
      · exact absurd h ho
  | (t, ev) :: rest, st, h => by
    rw [simEvents]
    apply simEvents_200_settles silT rest
    rcases h with h | h
    · rcases fireDue_cases st t with hf | ⟨_, d, c, hf⟩
      · rw [hf]
        by_cases ho : st.outcome.isSome
        · right
          simpa [handleEv, ho] using ho
        · cases ev with
          | chunk b => left; simpa [handleEv, ho] using h
          | closeEv => right; simp [handleEv, ho]
          | errorEv => right; simp [handleEv, ho]
      · rw [hf]
        right
        simp [handleEv]
    · rcases fireDue_cases st t with hf | ⟨hn, d, c, hf⟩
      · rw [hf]
        right
        simpa [handleEv, h] using h
      · rw [hn] at h
        cases h

theorem simEvents_200_body_prefix (silT : Nat) :
    ∀ (evs : List (Nat × DevEv)) (st : CState), st.outcome = none →
      ∀ (t : Nat) (c : Cause) (body : List Nat),
        (simEvents 200 silT st evs).outcome = some (NetOutcome.resolvedAt t c body) →
        ∃ pre suf, chunkPayloads evs = pre ++ suf ∧ body = (st.chunksAcc ++ pre).flatten
  | [], st, hn, t, c, body, hf => by
    rw [simEvents] at hf
    unfold fireRemaining at hf
    rw [if_neg (by simp [hn])] at hf
    refine ⟨[], [], by simp [chunkPayloads_nil], ?_⟩
    cases hs : st.silenceDL with
    | none =>
      cases hm : st.maxDL with
      | none =>
        rw [hs, hm] at hf
        simp [hn] at hf
      | some m =>
        rw [hs, hm] at hf
        simp at hf
        rw [← hf.2.2]
        simp
    | some d =>
      cases hm : st.maxDL with
      | none =>
        rw [hs, hm] at hf
        simp at hf
        rw [← hf.2.2]
        simp
      | some m =>
        rw [hs, hm] at hf
        simp only at hf
        split at hf <;>
          · simp at hf
            rw [← hf.2.2]
            simp
  | (te, ev) :: rest, st, hn, t, c, body, hf => by
    rw [simEvents] at hf
    rcases fireDue_cases st te with hfd | ⟨_, d, c2, hfd⟩
    · rw [hfd] at hf
      cases ev with
      | chunk b =>
        have hhe : handleEv 200 silT st te (DevEv.chunk b) =
            { st with chunksAcc := st.chunksAcc ++ [b], silenceDL := some (te + silT) } := by
          simp [handleEv, hn]
        rw [hhe] at hf
        rcases simEvents_200_body_prefix silT rest _ (by simp [hn]) t c body hf with
          ⟨pre, suf, hps, hbody⟩
        refine ⟨b :: pre, suf, ?_, ?_⟩
        · rw [chunkPayloads_cons_chunk, hps]
          rfl
        · simp at hbody ⊢
          rw [hbody]
      | closeEv =>
        have hhe : handleEv 200 silT st te DevEv.closeEv =
            { st with outcome := some (NetOutcome.resolvedAt te Cause.closedCause st.chunksAcc.flatten) } := by
          simp [handleEv, hn]
        rw [hhe, simEvents_frozen 200 silT rest _ (by simp)] at hf
        simp at hf
        refine ⟨[], chunkPayloads ((te, DevEv.closeEv) :: rest), by simp, ?_⟩
        rw [← hf.2.2]
        simp
      | errorEv =>
        have hhe : handleEv 200 silT st te DevEv.errorEv =
            { st with outcome := some (NetOutcome.rejectedErr te) } := by
          simp [handleEv, hn]
        rw [hhe, simEvents_frozen 200 silT rest _ (by simp)] at hf
        simp at hf
    · rw [hfd] at hf
      have hfrozen : handleEv 200 silT
          { st with outcome := some (NetOutcome.resolvedAt d c2 st.chunksAcc.flatten) } te ev =
          { st with outcome := some (NetOutcome.resolvedAt d c2 st.chunksAcc.flatten) } := by
        simp [handleEv]
      rw [hfrozen, simEvents_frozen 200 silT rest _ (by simp)] at hf
      simp at hf
      refine ⟨[], chunkPayloads ((te, ev) :: rest), by simp, ?_⟩
      rw [← hf.2.2]
      simp

theorem handleEv_non200_timers (status silT : Nat) (st : CState) (t : Nat) (ev : DevEv)
    (h : status ≠ 200) :
    (handleEv status silT st t ev).silenceDL = st.silenceDL ∧
    (handleEv status silT st t ev).maxDL = st.maxDL := by
  by_cases ho : st.outcome.isSome
  · simp [handleEv, ho]
  · cases ev <;> simp [handleEv, ho, h]

theorem simEvents_non200_chunks (status silT : Nat) (h : status ≠ 200) :
    ∀ (evs : List (Nat × DevEv)) (st : CState),
      st.silenceDL = none → st.maxDL = none → st.outcome = none →
      (∀ te ∈ evs, te.2.isChunk = true) →
      (simEvents status silT st evs).silenceDL = none ∧
      (simEvents status silT st evs).maxDL = none ∧
      (simEvents status silT st evs).outcome = none
  | [], st, hs, hm, ho, _ => by
    rw [simEvents]
    unfold fireRemaining
    simp [hs, hm, ho]
  | (t, ev) :: rest, st, hs, hm, ho, hall => by
    rw [simEvents]
    have hd : fireDue st t = st := by
      simp [fireDue, ho, dueTimer, hs, hm]
    rw [hd]
    have hc := hall (t, ev) (by simp)
    cases ev with
    | chunk b =>
      refine simEvents_non200_chunks status silT h rest _ ?_ ?_ ?_ ?_
      · simp [handleEv, ho, h, hs]
      · simp [handleEv, ho, h, hm]
      · simp [handleEv, ho, h]
      · intro te hte
        exact hall te (List.mem_cons_of_mem _ hte)
    | closeEv => simp [DevEv.isChunk] at hc
    | errorEv => simp [DevEv.isChunk] at hc

@[simp] theorem settleCount_nil : settleCount [] = 0 := rfl

@[simp] theorem settleCount_cons (o : ROut) (l : List ROut) :
    settleCount (o :: l) = (if o.isSettlement then 1 else 0) + settleCount l := by
  simp only [settleCount, List.filter_cons]
  split <;> simp [Nat.add_comm]

@[simp] theorem settleCount_append (a b : List ROut) :
    settleCount (a ++ b) = settleCount a + settleCount b := by
  simp [settleCount, List.filter_append]

@[simp] theorem settleCount_map_wrote (fs : List (List Nat)) (cl : List Nat) :
    settleCount (fs.map (fun f => ROut.wroteFrame f cl)) = 0 := by
  induction fs with
  | nil => rfl
  | cons f fs ih => simp [ih, ROut.isSettlement]

@[simp] theorem settleCount_map_ended (cs : List Nat) :
    settleCount (cs.map ROut.endedClient) = 0 := by
  induction cs with
  | nil => rfl
  | cons c cs ih => simp [ih, ROut.isSettlement]

theorem Inv_init : Inv RState.init := by
  refine ⟨rfl, fun _ => ⟨rfl, rfl, rfl, rfl⟩, ?_, ?_, ?_⟩ <;> intro h <;> simp [RState.init] at h

theorem step_Inv (st : RState) (ev : REv) (h : Inv st) : Inv (step st ev).1 := by
  obtain ⟨h1, h2, h3, h4, h5⟩ := h
  cases ev with
  | respOpen t status =>
    simp only [step]
    split_ifs <;> exact ⟨h1, h2, h3, h4, h5⟩
  | dataChunk chunk =>
    simp only [step]
    split_ifs with hr hst hsettle
    · exact ⟨h1, h2, h3, h4, h5⟩
    · exact ⟨h1, h2, h3, h4, h5⟩
    · obtain ⟨hne, hsf⟩ := hsettle
      have hlen : 0 < (extractFrames (st.buffer ++ chunk)).1.length :=
        List.length_pos.mpr hne
      refine ⟨rfl, ?_, fun _ => rfl, ?_, fun _ => rfl⟩
      · intro hs
        simp at hs
      · intro _
        show 1 ≤ st.statsFrames + (extractFrames (st.buffer ++ chunk)).1.length
        omega
    · refine ⟨h1, ?_, h3, ?_, h5⟩
      · intro hs
        have hnil : (extractFrames (st.buffer ++ chunk)).1 = [] := by
          by_contra hne
          exact hsettle ⟨hne, hs⟩
        obtain ⟨hc, ho, hr2, hf⟩ := h2 hs
        refine ⟨hc, ho, hr2, ?_⟩
        show st.statsFrames + (extractFrames (st.buffer ++ chunk)).1.length = 0
        simp [hnil, hf]
      · intro hst2
        have := h4 hst2
        show 1 ≤ st.statsFrames + (extractFrames (st.buffer ++ chunk)).1.length
        omega
  | upEnd t =>
    simp only [step]
    split_ifs with hr hst hsf hsf2
    · exact ⟨h1, h2, h3, h4, h5⟩
    · refine ⟨rfl, ?_, ?_, ?_, ?_⟩
      · intro hs
        simp at hs
      · intro hreg
        exact absurd hreg (by simp [(h2 hsf).2.2.1])
      · intro hq
        simp at hq
      · intro hc
        exact absurd (h2 hsf).1 hc
    · exact ⟨h1, h2, h3, h4, h5⟩
    · refine ⟨rfl, ?_, ?_, ?_, ?_⟩
      · intro hs
        simp at hs
      · intro hreg
        exact absurd hreg (by simp [(h2 hsf2).2.2.1])
      · intro hq
        simp at hq
      · intro hc
        exact absurd (h2 hsf2).1 hc
    · unfold stopStream
      split_ifs with hreg
      · exact ⟨h1, h2, h3, h4, h5⟩
      · refine ⟨h1, ?_, ?_, h4, h5⟩
        · intro hs
          exact ⟨(h2 hs).1, (h2 hs).2.1, rfl, (h2 hs).2.2.2⟩
        · intro hreg2
          simp at hreg2
  | upError t =>
    simp only [step]
    split_ifs with hr hst hsf
    · exact ⟨h1, h2, h3, h4, h5⟩
    · exact ⟨h1, h2, h3, h4, h5⟩
    · refine ⟨rfl, ?_, ?_, ?_, ?_⟩
      · intro hs
        simp at hs
      · intro hreg
        exact absurd hreg (by simp [(h2 hsf).2.2.1])
      · intro hq
        simp at hq
      · intro hc
        exact absurd (h2 hsf).1 hc
    · unfold stopStream
      split_ifs with hreg
      · exact ⟨h1, h2, h3, h4, h5⟩
      · refine ⟨h1, ?_, ?_, h4, h5⟩
        · intro hs
          exact ⟨(h2 hs).1, (h2 hs).2.1, rfl, (h2 hs).2.2.2⟩
        · intro hreg2
          simp at hreg2
  | watchdogFire =>
    simp only [step]
    split_ifs with hcl hsf
    · exact ⟨h1, h2, h3, h4, h5⟩
    · refine ⟨rfl, ?_, ?_, ?_, ?_⟩
      · intro hs
        simp at hs
      · intro hreg
        exact absurd hreg (by simp [(h2 hsf).2.2.1])
      · intro hq
        simp at hq
      · intro hc
        exact absurd (h2 hsf).1 hc
    · exact ⟨h1, h2, h3, h4, h5⟩
  | reqError =>
    simp only [step]
    split_ifs with hsf
    · refine ⟨rfl, ?_, ?_, ?_, ?_⟩
      · intro hs
        simp at hs
      · intro hreg
        exact absurd hreg (by simp [(h2 hsf).2.2.1])
      · intro hq
        simp at hq
      · intro hc
        exact absurd (h2 hsf).1 hc
    · exact ⟨h1, h2, h3, h4, h5⟩
  | reqTimeout => exact ⟨h1, h2, h3, h4, h5⟩
  | attach c =>
    simp only [step]
    split_ifs with hreg hc ho3 ho4
    · exact ⟨h1, h2, h3, h4, h5⟩
    all_goals
      have hregt : st.inRegistry = true := by
        revert hreg
        cases st.inRegistry <;> simp
    all_goals
      have hstart := h3 hregt
    all_goals
      exact ⟨h1, fun hs => absurd (h2 hs).2.2.1 hreg, fun _ => hstart, h4, fun _ => hstart⟩
  | closeEvt c t =>
    simp only [step]
    split_ifs with hobs hnil
    · unfold stopStream
      split_ifs with hreg
      · refine ⟨h1, ?_, h3, h4, ?_⟩
        · intro hs
          obtain ⟨hc, ho, hr2, hf⟩ := h2 hs
          exact ⟨by simp [hc], ho, hr2, hf⟩
        · intro hc
          exact absurd hnil hc
      · refine ⟨h1, ?_, ?_, h4, ?_⟩
        · intro hs
          obtain ⟨hc, ho, hr2, hf⟩ := h2 hs
          exact ⟨by simp [hc], ho, rfl, hf⟩
        · intro hreg2
          simp at hreg2
        · intro hc
          exact absurd hnil hc
    · refine ⟨h1, ?_, h3, h4, ?_⟩
      · intro hs
        obtain ⟨hc, ho, hr2, hf⟩ := h2 hs
        exact ⟨by simp [hc], ho, hr2, hf⟩
      · intro hc
        apply h5
        intro hcl
        rw [hcl] at hc
        simp at hc
    · exact ⟨h1, h2, h3, h4, h5⟩
  | errorEvt c =>
    simp only [step]
    split_ifs with hobs
    · refine ⟨h1, ?_, h3, h4, ?_⟩
      · intro hs
        obtain ⟨hc, ho, hr2, hf⟩ := h2 hs
        exact ⟨by simp [hc], ho, hr2, hf⟩
      · intro hc
        apply h5
        intro hcl
        rw [hcl] at hc
        simp at hc
    · exact ⟨h1, h2, h3, h4, h5⟩
  | stopCall t =>
    simp only [step]
    unfold stopStream
    split_ifs with hreg
    · exact ⟨h1, h2, h3, h4, h5⟩
    · refine ⟨h1, ?_, ?_, h4, h5⟩
      · intro hs
        exact ⟨(h2 hs).1, (h2 hs).2.1, rfl, (h2 hs).2.2.2⟩
      · intro hreg2
        simp at hreg2

theorem run_Inv (evs : List REv) : Inv (run RState.init evs) := by
  have hgen : ∀ (evs : List REv) (st : RState), Inv st → Inv (run st evs) := by
    intro evs
    induction evs with
    | nil => intro st hst; exact hst
    | cons ev rest ih =>
      intro st hst
      rw [run]
      exact ih _ (step_Inv st ev hst)
  exact hgen evs RState.init Inv_init

theorem step_settled_mono (st : RState) (ev : REv) (h : st.settled = true) :
    (step st ev).1.settled = true := by
  cases ev <;>
    simp only [step] <;>
    (try unfold stopStream) <;>
    (try split_ifs) <;>
    first
      | exact h
      | rfl

theorem step_outcome_frozen (st : RState) (ev : REv) (h : st.settled = true) :
    (step st ev).1.outcome = st.outcome ∧ settleCount (step st ev).2 = 0 := by
  cases ev <;>
    simp only [step] <;>
    (try unfold stopStream) <;>
    (try split_ifs) <;>
    simp_all [ROut.isSettlement]

theorem step_settle_le_one (st : RState) (ev : REv) :
    settleCount (step st ev).2 ≤ 1 := by
  cases ev <;>
    simp only [step] <;>
    (try unfold stopStream) <;>
    (try split_ifs) <;>
    simp [ROut.isSettlement]

theorem step_unsettled_no_settlement (st : RState) (ev : REv)
    (h : (step st ev).1.settled = false) : settleCount (step st ev).2 = 0 := by
  cases ev <;>
    simp only [step] at h ⊢ <;>
    (try unfold stopStream at h ⊢) <;>
    (try split_ifs at h ⊢) <;>
    simp_all [ROut.isSettlement]

theorem run_settled_mono : ∀ (evs : List REv) (st : RState), st.settled = true →
    (run st evs).settled = true
  | [], _, h => h
  | ev :: rest, st, h => by
    rw [run]
    exact run_settled_mono rest _ (step_settled_mono st ev h)

theorem runOuts_settled_zero : ∀ (evs : List REv) (st : RState), st.settled = true →
    settleCount (runOuts st evs) = 0
  | [], _, _ => rfl
  | ev :: rest, st, h => by
    rw [runOuts, settleCount_append, (step_outcome_frozen st ev h).2,
        runOuts_settled_zero rest _ (step_settled_mono st ev h)]

theorem run_outcome_frozen : ∀ (evs : List REv) (st : RState), st.settled = true →
    (run st evs).outcome = st.outcome
  | [], _, _ => rfl
  | ev :: rest, st, h => by
    rw [run, run_outcome_frozen rest _ (step_settled_mono st ev h),
        (step_outcome_frozen st ev h).1]

theorem runOuts_le_one : ∀ (evs : List REv) (st : RState),
    settleCount (runOuts st evs) ≤ 1
  | [], _ => by simp [runOuts]
  | ev :: rest, st => by
    rw [runOuts, settleCount_append]
    by_cases hs : (step st ev).1.settled = true
    · have hr := runOuts_settled_zero rest _ hs
      have h1 := step_settle_le_one st ev
      omega
    · have h0 := step_unsettled_no_settlement st ev (by revert hs; cases (step st ev).1.settled <;> simp)
      have hr := runOuts_le_one rest (step st ev).1
      omega

/-- The promise is resolved only from the data handler, on a chunk whose
accumulated buffer yields at least one complete frame, while unsettled. -/
theorem resolved_only_first_frame (st : RState) (ev : REv)
    (h : ROut.resolvedOut ∈ (step st ev).2) :
    ∃ chunk, ev = REv.dataChunk chunk ∧ st.settled = false ∧
      st.responded = true ∧ st.status = 200 ∧
      (extractFrames (st.buffer ++ chunk)).1 ≠ [] := by
  cases ev <;>
    simp only [step] at h <;>
    (try unfold stopStream at h) <;>
    (try split_ifs at h) <;>
    simp_all

/-- Every frame write emitted by a step goes to exactly the client set
attached at the start of that step, and comes from the data handler. -/
theorem wrote_dst (st : RState) (ev : REv) (f dst : List Nat)
    (h : ROut.wroteFrame f dst ∈ (step st ev).2) :
    dst = st.clients ∧
      ∃ chunk, ev = REv.dataChunk chunk ∧ f ∈ (extractFrames (st.buffer ++ chunk)).1 := by
  cases ev
  case dataChunk chunk =>
    simp only [step] at h
    split_ifs at h with hr hst hset
    · simp at h
    · simp at h
    · simp only [List.mem_cons] at h
      rcases h with h | h | h
      · cases h
      · cases h
      · rcases List.mem_map.mp h with ⟨a, hmem, heq⟩
        cases heq
        exact ⟨rfl, chunk, rfl, hmem⟩
    · rcases List.mem_map.mp h with ⟨a, hmem, heq⟩
      cases heq
      exact ⟨rfl, chunk, rfl, hmem⟩
  all_goals
    simp only [step] at h <;>
      (try unfold stopStream at h) <;>
      (try split_ifs at h) <;>
      simp at h

theorem firstWroteTo_append_some : ∀ (a b : List ROut) (x : List Nat),
    firstWroteTo a = some x → firstWroteTo (a ++ b) = some x
  | [], _, _, h => by cases h
  | o :: rest, b, x, h => by
    cases o <;> simp only [firstWroteTo, List.cons_append] at h ⊢ <;>
      first
        | exact h
        | exact firstWroteTo_append_some rest b x h

theorem firstWroteTo_append_none : ∀ (a b : List ROut),
    firstWroteTo a = none → firstWroteTo (a ++ b) = firstWroteTo b
  | [], _, _ => rfl
  | o :: rest, b, h => by
    cases o <;> simp only [firstWroteTo, List.cons_append] at h ⊢ <;>
      first
        | exact firstWroteTo_append_none rest b h
        | cases h

theorem firstWroteTo_some_mem : ∀ (l : List ROut) (x : List Nat),
    firstWroteTo l = some x → ∃ f, ROut.wroteFrame f x ∈ l
  | [], x, h => by cases h
  | o :: rest, x, h => by
    cases o with
    | wroteFrame f dst =>
      simp only [firstWroteTo] at h
      injection h with h2
      subst h2
      exact ⟨f, List.mem_cons_self _ _⟩
    | _ =>
      simp only [firstWroteTo] at h
      obtain ⟨f, hf⟩ := firstWroteTo_some_mem rest x h
      exact ⟨f, List.mem_cons_of_mem _ hf⟩

theorem started_emits_write (st : RState) (ev : REv)
    (hpre : st.outcome ≠ some Settle.started)
    (hpost : (step st ev).1.outcome = some Settle.started) :
    ∃ x, firstWroteTo (step st ev).2 = some x := by
  cases ev
  case dataChunk chunk =>
    simp only [step] at hpost ⊢
    split_ifs at hpost ⊢ with hr hst hset
    · exact absurd hpost hpre
    · exact absurd hpost hpre
    · obtain ⟨f0, fs, hfs⟩ := List.exists_cons_of_ne_nil hset.1
      rw [hfs]
      exact ⟨st.clients, rfl⟩
    · exact absurd hpost hpre
  all_goals
    simp only [step] at hpost ⊢ <;>
      (try unfold stopStream at hpost ⊢) <;>
      (try split_ifs at hpost ⊢) <;>
      first
        | exact absurd hpost hpre
        | simp_all

/-- While the attempt has not yet started, no frame has ever been written
to a nonempty client set: the first frame write of any trace goes to the
empty client set. -/
theorem firstWrote_before_start : ∀ (evs : List REv) (st : RState), Inv st →
    st.outcome ≠ some Settle.started →
    firstWroteTo (runOuts st evs) = none ∨ firstWroteTo (runOuts st evs) = some []
  | [], _, _, _ => Or.inl rfl
  | ev :: rest, st, hInv, hout => by
    rw [runOuts]
    cases hfw : firstWroteTo (step st ev).2 with
    | none =>
      rw [firstWroteTo_append_none _ _ hfw]
      by_cases hpost : (step st ev).1.outcome = some Settle.started
      · obtain ⟨x, hx⟩ := started_emits_write st ev hout hpost
        rw [hfw] at hx
        cases hx
      · exact firstWrote_before_start rest _ (step_Inv st ev hInv) hpost
    | some x =>
      rw [firstWroteTo_append_some _ _ _ hfw]
      right
      obtain ⟨f, hmem⟩ := firstWroteTo_some_mem _ _ hfw
      obtain ⟨hdst, _⟩ := wrote_dst st ev f x hmem
      have hcl : st.clients = [] := by
        by_contra hne
        exact hout (hInv.2.2.2.2 hne)
      rw [hdst, hcl]

/-! ## Claims -/
/-- C3: chunk-boundary independence of the replay frame parser: delivering
a byte stream in arbitrary chunks (including marker pairs split across
chunk boundaries) yields exactly the frames, and the same leftover buffer,
as delivering all bytes as one chunk — so no frame is ever re-emitted —
and every extracted frame spans its start marker to its end marker
inclusive (at least 4 bytes, begins with FF D8, ends with FF D9). -/
theorem frame_parser_chunk_independence (chunks : List (List Nat)) :
    processChunks [] chunks = extractFrames chunks.flatten ∧
    ∀ f ∈ (extractFrames chunks.flatten).1,
      4 ≤ f.length ∧ f.take 2 = [255, 216] ∧ f.drop (f.length - 2) = [255, 217] := by
  constructor
  · have h := processChunks_eq_extract chunks [] rfl
    rwa [List.nil_append] at h
  · exact extractFrames_frame_shape chunks.flatten

theorem frame_parser_chunk_independence_witness :
    processChunks [] [[255, 216, 255], [217]] = extractFrames [255, 216, 255, 217] ∧
    4 ≤ ([255, 216, 255, 217] : List Nat).length ∧
    ([255, 216, 255, 217] : List Nat).take 2 = [255, 216] ∧
    ([255, 216, 255, 217] : List Nat).drop (([255, 216, 255, 217] : List Nat).length - 2) =
      [255, 217] :=
  ⟨(frame_parser_chunk_independence [[255, 216, 255], [217]]).1,
   (frame_parser_chunk_independence [[255, 216, 255], [217]]).2 [255, 216, 255, 217] (by decide)⟩

/-- C7 counterexample: a buffer with a leading byte before the start
marker and no end marker retains the whole buffer unchanged — the claimed
trimming to the suffix from the start marker onward does not happen. -/
theorem frame_parser_no_trim_counterexample :
    extractFrames [7, 255, 216] = ([], [7, 255, 216]) ∧
    ([7, 255, 216] : List Nat) ≠ [255, 216] := by decide

/-- C7 (amended): with no start marker, or with a start marker but no
following end marker, zero frames are extracted and the buffer is
retained as-is (leading bytes before the start marker are NOT discarded);
and over any number of chunk deliveries whose accumulated bytes contain
no complete frame, zero frames are extracted and all bytes are retained. -/
theorem frame_parser_incomplete_retains (buf : List Nat) (chunks : List (List Nat)) :
    (findMarker 255 216 buf 0 = none → extractFrames buf = ([], buf)) ∧
    (∀ s, findMarker 255 216 buf 0 = some s → findMarker 255 217 buf (s + 2) = none →
      extractFrames buf = ([], buf)) ∧
    ((extractFrames chunks.flatten).1 = [] →
      processChunks [] chunks = ([], chunks.flatten)) := by
  refine ⟨extractFrames_no_soi buf, fun s hs he => extractFrames_no_eoi buf s hs he, ?_⟩
  intro hnil
  have h := processChunks_eq_extract chunks [] rfl
  rw [List.nil_append] at h
  rw [h, extractFrames_nil_of_fst_nil _ hnil]

theorem frame_parser_incomplete_retains_witness :
    extractFrames [7, 255, 216] = ([], [7, 255, 216]) ∧
    processChunks [] [[7], [255], [216]] = ([], [7, 255, 216]) :=
  ⟨(frame_parser_incomplete_retains [7, 255, 216] [[7], [255], [216]]).2.1 1
      (by decide) (by decide),
   (frame_parser_incomplete_retains [7, 255, 216] [[7], [255], [216]]).2.2 (by decide)⟩

/-- C6: for a 200 device response the request always completes — by device
close, by silence after at least one byte, or by the max-timeout ceiling,
whichever is due first — and any resolved body is the concatenation, in
arrival order, of exactly the chunks received before completion (a prefix
of the device's chunk payloads).  The spec's worked example holds: "ab"
(bytes 97 98) at 100 ms then silence then close at 700 ms, with
silenceTimeout 500 ms and maxTimeout 10000 ms, resolves at 600 ms via the
silence path with body "ab", not via the maximum. -/
theorem netVuHttpGet_completion (silT maxT tOpen : Nat) (evs : List (Nat × DevEv)) :
    (netVuHttpGetSim 200 silT maxT tOpen evs).outcome.isSome ∧
    (∀ (t : Nat) (c : Cause) (body : List Nat),
      (netVuHttpGetSim 200 silT maxT tOpen evs).outcome =
        some (NetOutcome.resolvedAt t c body) →
      ∃ pre suf, chunkPayloads evs = pre ++ suf ∧ body = pre.flatten) ∧
    (netVuHttpGetSim 200 500 10000 0
        [(100, DevEv.chunk [97, 98]), (700, DevEv.closeEv)]).outcome =
      some (NetOutcome.resolvedAt 600 Cause.silenceCause [97, 98]) := by
  refine ⟨?_, ?_, by decide⟩
  · simp only [netVuHttpGetSim, if_pos]
    exact simEvents_200_settles silT evs _ (Or.inl rfl)
  · intro t c body h
    simp only [netVuHttpGetSim, if_pos] at h
    obtain ⟨pre, suf, h1, h2⟩ := simEvents_200_body_prefix silT evs _ rfl t c body h
    exact ⟨pre, suf, h1, by simpa using h2⟩

theorem netVuHttpGet_completion_witness :
    ∃ pre suf,
      chunkPayloads [(100, DevEv.chunk [97, 98]), (700, DevEv.closeEv)] = pre ++ suf ∧
      [97, 98] = pre.flatten :=
  (netVuHttpGet_completion 500 10000 0
      [(100, DevEv.chunk [97, 98]), (700, DevEv.closeEv)]).2.1
    600 Cause.silenceCause [97, 98] (by decide)

/-- C10: on a non-200 response neither the silence timer nor the max timer
is ever armed (both are armed only on the 200 path, and the request
options configure no socket timeout), so the promise can settle only on
response end or error: a device that keeps the connection open forever —
sending any number of body chunks but never ending or erroring — leaves
the request unsettled forever. -/
theorem netVuHttpGet_non200_never_settles (status silT maxT tOpen : Nat)
    (evs : List (Nat × DevEv)) (st : CState) (t : Nat) (ev : DevEv)
    (hst : status ≠ 200) (hchunks : ∀ te ∈ evs, te.2.isChunk = true) :
    (netVuHttpGetSim status silT maxT tOpen evs).silenceDL = none ∧
    (netVuHttpGetSim status silT maxT tOpen evs).maxDL = none ∧
    (netVuHttpGetSim status silT maxT tOpen evs).outcome = none ∧
    (handleEv status silT st t ev).silenceDL = st.silenceDL ∧
    (handleEv status silT st t ev).maxDL = st.maxDL := by
  have hgate : netVuHttpGetSim status silT maxT tOpen evs =
      simEvents status silT {} evs := by
    simp [netVuHttpGetSim, hst]
  have h := simEvents_non200_chunks status silT hst evs {} rfl rfl rfl hchunks
  have ht := handleEv_non200_timers status silT st t ev hst
  rw [hgate]
  exact ⟨h.1, h.2.1, h.2.2, ht.1, ht.2⟩

theorem netVuHttpGet_non200_never_settles_witness :
    (netVuHttpGetSim 404 500 10000 0
      [(100, DevEv.chunk [104]), (999999, DevEv.chunk [33])]).outcome = none :=
  (netVuHttpGet_non200_never_settles 404 500 10000 0
      [(100, DevEv.chunk [104]), (999999, DevEv.chunk [33])]
      {} 0 (DevEv.chunk []) (by decide) (by decide)).2.2.1

theorem run_append : ∀ (a b : List REv) (st : RState),
    run st (a ++ b) = run (run st a) b
  | [], _, _ => rfl
  | ev :: rest, b, st => by
    rw [List.cons_append, run, run, run_append rest b (step st ev).1]

/-- C1 counterexample: in the trace "response 200, chunk holding one
complete frame, the requesting client attaches, another frame arrives",
the first extracted frame is written to the empty client set — the
requesting client (sink 7) is not among its recipients and so misses its
own first frame; only the second frame reaches sink 7. -/
theorem replay_first_frame_counterexample :
    firstWroteTo (runOuts RState.init
      [REv.respOpen 0 200, REv.dataChunk [255, 216, 255, 217],
       REv.attach 7, REv.dataChunk [255, 216, 255, 217]]) = some [] ∧
    ROut.wroteFrame [255, 216, 255, 217] [7] ∈ runOuts RState.init
      [REv.respOpen 0 200, REv.dataChunk [255, 216, 255, 217],
       REv.attach 7, REv.dataChunk [255, 216, 255, 217]] := by decide

/-- C1 (amended): the attempt succeeds exactly on the first extracted
frame — never on connection open (`respOpen` emits nothing; a resolution
can only be emitted by a data event that parses at least one frame while
unsettled) — and the requesting sink can be attached only after that
point: before success the client set is empty and the stream is not in
the registry.  Consequently the first frame write of any trace goes to
the empty client set (the requesting client misses its own first frame),
while every frame extracted by a data event is written to precisely the
clients attached at that event — in particular to the requesting sink for
every frame extracted after it attached. -/
theorem replay_first_frame (evs : List REv) (st : RState) :
    ((run RState.init evs).settled = false →
      (run RState.init evs).clients = [] ∧ (run RState.init evs).inRegistry = false) ∧
    (∀ t status, ROut.resolvedOut ∉ (step st (REv.respOpen t status)).2) ∧
    (∀ ev, ROut.resolvedOut ∈ (step st ev).2 →
      ∃ chunk, ev = REv.dataChunk chunk ∧ st.settled = false ∧
        (extractFrames (st.buffer ++ chunk)).1 ≠ []) ∧
    (firstWroteTo (runOuts RState.init evs) = none ∨
      firstWroteTo (runOuts RState.init evs) = some []) ∧
    (∀ (f dst : List Nat) (ev : REv),
      ROut.wroteFrame f dst ∈ (step st ev).2 → dst = st.clients) := by
  refine ⟨?_, ?_, ?_, ?_, ?_⟩
  · intro hs
    have hInv := run_Inv evs
    exact ⟨(hInv.2.1 hs).1, (hInv.2.1 hs).2.2.1⟩
  · intro t status
    simp only [step]
    split_ifs <;> simp
  · intro ev h
    obtain ⟨chunk, hev, hset, _, _, hne⟩ := resolved_only_first_frame st ev h
    exact ⟨chunk, hev, hset, hne⟩
  · exact firstWrote_before_start evs RState.init Inv_init (by simp [RState.init])
  · intro f dst ev h
    exact (wrote_dst st ev f dst h).1

theorem replay_first_frame_witness :
    (run RState.init [REv.respOpen 0 200]).clients = [] ∧
    (run RState.init [REv.respOpen 0 200]).inRegistry = false :=
  (replay_first_frame [REv.respOpen 0 200] RState.init).1 (by decide)

/-- C2 counterexample: the transport-timeout handler runs first yet does
not settle the attempt (no resolution or rejection is emitted and the
outcome stays pending), and a later completion path — the watchdog — then
settles it; this refutes "whichever of the listed completion paths runs
first settles the attempt and every later path is a no-op". -/
theorem replay_settle_timeout_counterexample :
    (run RState.init [REv.respOpen 0 200, REv.reqTimeout]).outcome = none ∧
    settleCount (runOuts RState.init [REv.respOpen 0 200, REv.reqTimeout]) = 0 ∧
    (run RState.init [REv.respOpen 0 200, REv.reqTimeout, REv.watchdogFire]).outcome =
      some (Settle.failed RErr.watchdogNoRecording) := by decide

/-- C2 (amended): at most one settlement (resolve or reject) is emitted
over any event trace, and once an outcome is recorded it is frozen — in
particular a failed attempt never later starts.  Each genuinely settling
completion path settles when it runs first, in every state where its
handler exists: the 20s watchdog and the request-level transport error
settle any unsettled attempt, including one with no response at all (the
watchdog rejecting with the no-recording-found error); the upstream end
settles any unsettled attempt with a response — with the device-error
rejection carrying status and collected body when the status is not 200,
with the no-recording rejection when it is; the response-level transport
error and first-frame success settle an unsettled 200 attempt.  The
transport-timeout handler, however, never settles: it only destroys the
connection and defers to the watchdog. -/
theorem replay_settle_exactly_once (evs tail : List REv) (o : Settle) (st : RState)
    (t : Nat) (chunk : List Nat) :
    settleCount (runOuts RState.init evs) ≤ 1 ∧
    ((run RState.init evs).outcome = some o →
      (run RState.init (evs ++ tail)).outcome = some o) ∧
    (st.settled = false →
      (st.watchdogCleared = false →
        settleCount (step st REv.watchdogFire).2 = 1 ∧
        (step st REv.watchdogFire).1.outcome =
          some (Settle.failed RErr.watchdogNoRecording)) ∧
      settleCount (step st REv.reqError).2 = 1 ∧
      (st.responded = true →
        settleCount (step st (REv.upEnd t)).2 = 1 ∧
        (st.status ≠ 200 →
          (step st (REv.upEnd t)).1.outcome =
            some (Settle.failed (RErr.deviceStatus st.status st.errorData)))) ∧
      (st.responded = true → st.status = 200 →
        settleCount (step st (REv.upError t)).2 = 1 ∧
        ((extractFrames (st.buffer ++ chunk)).1 ≠ [] →
          settleCount (step st (REv.dataChunk chunk)).2 = 1))) ∧
    (settleCount (step st REv.reqTimeout).2 = 0 ∧
      (step st REv.reqTimeout).1.outcome = st.outcome) := by
  refine ⟨runOuts_le_one evs RState.init, ?_, ?_, by simp [step, ROut.isSettlement], by simp [step]⟩
  · intro h
    have hInv := run_Inv evs
    have hsettled : (run RState.init evs).settled = true := by
      rw [hInv.1, h]
      rfl
    rw [run_append, run_outcome_frozen tail _ hsettled, h]
  · intro hset
    refine ⟨?_, ?_, ?_, ?_⟩
    · intro hcl
      constructor <;> simp [step, hcl, hset, ROut.isSettlement]
    · simp [step, hset, ROut.isSettlement]
    · intro hr
      constructor
      · by_cases hst : st.status = 200 <;>
          simp [step, hr, hst, hset, ROut.isSettlement]
      · intro hst
        simp [step, hr, hst, hset]
    · intro hr hst
      constructor
      · simp [step, hr, hst, hset, ROut.isSettlement]
      · intro hne
        simp [step, hr, hst, hne, hset, ROut.isSettlement]

theorem replay_settle_exactly_once_witness :
    (run RState.init ([REv.respOpen 0 200, REv.upEnd 5] ++ [REv.watchdogFire])).outcome =
      some (Settle.failed RErr.noRecordingAtTimestamp) ∧
    settleCount (step RState.init REv.watchdogFire).2 = 1 ∧
    (step { RState.init with responded := true, status := 404 } (REv.upEnd 5)).1.outcome =
      some (Settle.failed (RErr.deviceStatus 404 [])) :=
  ⟨(replay_settle_exactly_once [REv.respOpen 0 200, REv.upEnd 5] [REv.watchdogFire]
      (Settle.failed RErr.noRecordingAtTimestamp) RState.init 0 []).2.1 (by decide),
   (((replay_settle_exactly_once [] [] Settle.started RState.init 0 []).2.2.1
      (by decide)).1 (by decide)).1,
   (((replay_settle_exactly_once [] [] Settle.started
      { RState.init with responded := true, status := 404 } 5 []).2.2.1
      (by decide)).2.2.1 (by decide)).2 (by decide)⟩

theorem step_Started200 (st : RState) (ev : REv) (h : Started200 st) :
    Started200 (step st ev).1 := by
  cases ev <;>
    simp only [step] <;>
    (try unfold stopStream) <;>
    (try split_ifs) <;>
    intro ho <;>
    first
      | exact h ho
      | simp_all [Started200]

theorem run_Started200 (evs : List REv) : Started200 (run RState.init evs) := by
  have hgen : ∀ (evs : List REv) (st : RState), Started200 st → Started200 (run st evs) := by
    intro evs
    induction evs with
    | nil => exact fun st h => h
    | cons ev rest ih => exact fun st h => ih _ (step_Started200 st ev h)
  exact hgen evs RState.init (fun ho => by simp [RState.init] at ho)

/-- C5: for a replay session on a 200 response, if the upstream stream
ends before any frame has been extracted the attempt ends up failed — and
when nothing else had settled it first, specifically with the
"No recording found at the requested timestamp" rejection; if it ends
after the attempt started (each started attempt has delivered at least one
frame), nothing is rejected, no error notification is emitted, and a
registered session is just stopped (removed, with the stop notification
emitted). -/
theorem replay_upstream_end (evs : List REv) (t : Nat) :
    ((run RState.init evs).responded = true → (run RState.init evs).status = 200 →
      (run RState.init evs).statsFrames = 0 →
      (∃ e, (step (run RState.init evs) (REv.upEnd t)).1.outcome =
        some (Settle.failed e)) ∧
      ((run RState.init evs).outcome = none →
        (step (run RState.init evs) (REv.upEnd t)).1.outcome =
          some (Settle.failed RErr.noRecordingAtTimestamp) ∧
        (step (run RState.init evs) (REv.upEnd t)).2 =
          [ROut.rejectedOut RErr.noRecordingAtTimestamp])) ∧
    ((run RState.init evs).outcome = some Settle.started →
      1 ≤ (run RState.init evs).statsFrames ∧
      (∀ e, ROut.rejectedOut e ∉ (step (run RState.init evs) (REv.upEnd t)).2) ∧
      ROut.emittedError ∉ (step (run RState.init evs) (REv.upEnd t)).2 ∧
      ((run RState.init evs).inRegistry = true →
        (step (run RState.init evs) (REv.upEnd t)).1.inRegistry = false ∧
        ROut.emittedStopped (t - (run RState.init evs).startTime)
            (run RState.init evs).statsBytes (run RState.init evs).statsFrames ∈
          (step (run RState.init evs) (REv.upEnd t)).2)) := by
  have hInv := run_Inv evs
  constructor
  · intro hr hst hf
    constructor
    · cases ho : (run RState.init evs).outcome with
      | none =>
        have hset : (run RState.init evs).settled = false := by
          rw [hInv.1, ho]
          rfl
        exact ⟨RErr.noRecordingAtTimestamp, by simp [step, hr, hst, hset]⟩
      | some o =>
        cases o with
        | started => exact absurd (hInv.2.2.2.1 ho) (by omega)
        | failed e =>
          have hset : (run RState.init evs).settled = true := by
            rw [hInv.1, ho]
            rfl
          refine ⟨e, ?_⟩
          rw [(step_outcome_frozen _ (REv.upEnd t) hset).1, ho]
    · intro ho
      have hset : (run RState.init evs).settled = false := by
        rw [hInv.1, ho]
        rfl
      constructor <;> simp [step, hr, hst, hset]
  · intro ho
    have hset : (run RState.init evs).settled = true := by
      rw [hInv.1, ho]
      rfl
    obtain ⟨hr, hst⟩ := run_Started200 evs ho
    have hstep1 : (step (run RState.init evs) (REv.upEnd t)).1 =
        (stopStream (run RState.init evs) t).2.1 := by
      simp [step, hr, hst, hset]
    have hstep2 : (step (run RState.init evs) (REv.upEnd t)).2 =
        (stopStream (run RState.init evs) t).2.2 := by
      simp [step, hr, hst, hset]
    refine ⟨hInv.2.2.2.1 ho, ?_, ?_, ?_⟩
    · intro e
      rw [hstep2]
      unfold stopStream
      split_ifs <;> simp
    · rw [hstep2]
      unfold stopStream
      split_ifs <;> simp
    · intro hreg
      constructor
      · rw [hstep1]
        simp [stopStream, hreg]
      · rw [hstep2]
        simp [stopStream, hreg]

theorem replay_upstream_end_witness :
    (step (run RState.init [REv.respOpen 0 200]) (REv.upEnd 9)).1.outcome =
      some (Settle.failed RErr.noRecordingAtTimestamp) ∧
    (step (run RState.init [REv.respOpen 0 200]) (REv.upEnd 9)).2 =
      [ROut.rejectedOut RErr.noRecordingAtTimestamp] :=
  ((replay_upstream_end [REv.respOpen 0 200] 9).1 (by decide) (by decide) (by decide)).2
    (by decide)

/-- C8 counterexample: after "response 200, first frame, attach sink 5,
sink 5 errors", the error observer has removed the last sink, yet the
session is still registered and no stop notification was ever emitted —
the error observer does not invoke stop. -/
theorem addClient_error_no_stop_counterexample :
    (run RState.init
      [REv.respOpen 0 200, REv.dataChunk [255, 216, 255, 217],
       REv.attach 5, REv.errorEvt 5]).clients = [] ∧
    (run RState.init
      [REv.respOpen 0 200, REv.dataChunk [255, 216, 255, 217],
       REv.attach 5, REv.errorEvt 5]).inRegistry = true ∧
    (runOuts RState.init
      [REv.respOpen 0 200, REv.dataChunk [255, 216, 255, 217],
       REv.attach 5, REv.errorEvt 5]).filter ROut.isStoppedEmit = [] := by decide

/-- C8 (amended): for a sink with observers installed, the close observer
removes the sink and, when the client set is then empty, invokes stop on
the session (a registered session is removed and the stop notification
emitted); the error observer only removes the sink and never invokes
stop — it leaves the registry untouched and emits nothing — so teardown
after a sink error waits for that sink's close event. -/
theorem addClient_observers (st : RState) (c t : Nat) (hobs : c ∈ st.observed) :
    ((step st (REv.closeEvt c t)).1.clients = st.clients.erase c) ∧
    (st.clients.erase c = [] → st.inRegistry = true →
      (step st (REv.closeEvt c t)).1.inRegistry = false ∧
      ROut.emittedStopped (t - st.startTime) st.statsBytes st.statsFrames ∈
        (step st (REv.closeEvt c t)).2) ∧
    ((step st (REv.errorEvt c)).1.clients = st.clients.erase c) ∧
    (step st (REv.errorEvt c)).2 = [] ∧
    (step st (REv.errorEvt c)).1.inRegistry = st.inRegistry := by
  refine ⟨?_, ?_, ?_, ?_, ?_⟩
  · simp only [step, if_pos hobs]
    unfold stopStream
    split_ifs <;> simp
  · intro hnil hreg
    simp only [step, if_pos hobs, if_pos hnil]
    constructor <;> simp [stopStream, hreg]
  · simp [step, hobs]
  · simp [step, hobs]
  · simp [step, hobs]

theorem addClient_observers_witness :
    (step (run RState.init
        [REv.respOpen 0 200, REv.dataChunk [255, 216, 255, 217], REv.attach 5])
      (REv.errorEvt 5)).2 = [] ∧
    (step (run RState.init
        [REv.respOpen 0 200, REv.dataChunk [255, 216, 255, 217], REv.attach 5])
      (REv.errorEvt 5)).1.inRegistry =
      (run RState.init
        [REv.respOpen 0 200, REv.dataChunk [255, 216, 255, 217], REv.attach 5]).inRegistry :=
  ⟨(addClient_observers (run RState.init
      [REv.respOpen 0 200, REv.dataChunk [255, 216, 255, 217], REv.attach 5])
      5 3 (by decide)).2.2.2.1,
   (addClient_observers (run RState.init
      [REv.respOpen 0 200, REv.dataChunk [255, 216, 255, 217], REv.attach 5])
      5 3 (by decide)).2.2.2.2⟩

/-- C9: `stopStream` with an unknown id returns false and changes no state;
with a registered session it returns true, destroys the upstream request
and device stream, gracefully ends (`end`, not `destroy`) every attached
sink, releases the buffer, removes the session from the registry, and
emits the stop notification carrying duration, bytes and frame count; a
second stop on the same session then returns false. -/
theorem stopStream_contract (st : RState) (t t2 : Nat) :
    (st.inRegistry = false → stopStream st t = (false, st, [])) ∧
    (st.inRegistry = true →
      (stopStream st t).1 = true ∧
      (stopStream st t).2.1.inRegistry = false ∧
      (stopStream st t).2.1.requestDestroyed = true ∧
      (stopStream st t).2.1.bufferReleased = true ∧
      (stopStream st t).2.2 =
        ROut.destroyedRequest :: ROut.destroyedResponse ::
          (st.clients.map ROut.endedClient ++
           [ROut.emittedStopped (t - st.startTime) st.statsBytes st.statsFrames]) ∧
      (stopStream (stopStream st t).2.1 t2).1 = false) := by
  constructor
  · intro h
    simp [stopStream, h]
  · intro h
    refine ⟨?_, ?_, ?_, ?_, ?_, ?_⟩ <;> simp [stopStream, h]

theorem stopStream_contract_witness :
    (stopStream { RState.init with inRegistry := true, clients := [1, 2] } 5).1 = true ∧
    (stopStream (stopStream { RState.init with inRegistry := true, clients := [1, 2] } 5).2.1
      6).1 = false :=
  ⟨((stopStream_contract { RState.init with inRegistry := true, clients := [1, 2] } 5 6).2
      (by decide)).1,
   ((stopStream_contract { RState.init with inRegistry := true, clients := [1, 2] } 5 6).2
      (by decide)).2.2.2.2.2⟩

/-- C4 counterexample: with maximum 1, two attempts are both admitted
while the registered count is 0 (registration happens only at the first
frame), and after both register the active count is 2, exceeding the
maximum — refuting "the active session count never exceeds the maximum". -/
theorem capacity_exceeded_counterexample :
    (mgrRun ({ maxStreams := 1 } : MgrState)
      [MgrEv.startAttempt, MgrEv.startAttempt,
       MgrEv.firstFrameRegister, MgrEv.firstFrameRegister]).active = 2 ∧
    ({ maxStreams := 1 } : MgrState).maxStreams < 2 := by decide

/-- C4 (amended): when the registered-session count has reached the
configured maximum, a creation call fails with the "Maximum streams limit
reached" error before any device connection attempt (no network call, no
state change) — the gate shared verbatim by `startLiveStream` and
`startReplayStream`; an attempt is admitted (a connection attempted) only
while the registered count is strictly below the maximum.  The gate does
not, however, bound the registered count once concurrently admitted
attempts register at their first frame. -/
theorem capacity_gate (st : MgrState) :
    (st.maxStreams ≤ st.active →
      mgrStep st MgrEv.startAttempt = (st, [MgrOut.atCapacityError st.maxStreams])) ∧
    ((mgrStep st MgrEv.startAttempt).2 = [MgrOut.netCall] →
      st.active < st.maxStreams) ∧
    (mgrStep st MgrEv.startAttempt).1.active = st.active := by
  refine ⟨?_, ?_, ?_⟩
  · intro h
    simp [mgrStep, h]
  · intro h
    by_contra hge
    simp [mgrStep, Nat.le_of_not_lt hge] at h
  · simp only [mgrStep]
    split_ifs <;> rfl

theorem capacity_gate_witness :
    mgrStep ({ active := 100, maxStreams := 100 } : MgrState) MgrEv.startAttempt =
      (({ active := 100, maxStreams := 100 } : MgrState), [MgrOut.atCapacityError 100]) :=
  (capacity_gate ({ active := 100, maxStreams := 100 } : MgrState)).1 (by decide)
